import Mathlib

/-
Verification of the Block-STM parallel transaction execution engine
(block-stm-executor crate: mvhashmap.rs, scheduler.rs, executor.rs).

The Rust code is embedded shallowly:
  * `BTreeMap<TxnIndex, VersionedEntry>` becomes a key-sorted association
    list; `range(..r).next_back()` becomes "last element of the filter of
    keys below r", which is the greatest key below r on a sorted list.
  * `DashMap<Address, _>` becomes an association list with append-on-insert
    (one fixed iteration order of the unordered Rust map).
  * Shared-memory concurrency becomes a small-step system: each worker is a
    phase machine and a schedule is the list of which worker takes the next
    atomic step (one `next_task` call, or one complete
    `execute_transaction` + `finish_execution`).  Any outcome of a schedule
    in this model is an outcome the multi-threaded program can produce.
  * `u64` / `U256` become `Nat` (no claim depends on overflow).
  * Signature verification (`Transaction::verify_signature`) is an opaque
    pure predicate, embedded as a boolean field `sigValid`.
-/

namespace BlockSTM

/-- types.rs: transaction index in the block (0-based). -/
abbrev TxnIndex := Nat

/-- types.rs: incarnation number. -/
abbrev Incarnation := Nat

/-- Account address, opaque fixed-width identifier (alloy `Address`). -/
abbrev Address := Nat

/-- types.rs: `Version { txn_idx, incarnation }`. -/
structure Version where
  txn_idx : TxnIndex
  incarnation : Incarnation
deriving DecidableEq, Repr

/-- types.rs: `AccountState { nonce, balance }`. -/
structure AccountState where
  nonce : Nat
  balance : Nat
deriving DecidableEq, Repr

/-- mvhashmap.rs: `VersionedEntry { version, state, readers }`. -/
structure VersionedEntry where
  version : Version
  state : AccountState
  readers : List TxnIndex
deriving DecidableEq, Repr

/-- Embedding of `BTreeMap<TxnIndex, VersionedEntry>`: an association list
whose well-formed states have strictly increasing keys. -/
abbrev VersionHistory := List (TxnIndex × VersionedEntry)

/-- Association-list lookup (embeds both BTreeMap `get` and DashMap `get`). -/
def alistLookup {β : Type} : List (Nat × β) → Nat → Option β
  | [], _ => none
  | (k, v) :: t, a => if a = k then some v else alistLookup t a

/-- Association-list update of the value stored at an existing key. -/
def alistSet {β : Type} : List (Nat × β) → Nat → β → List (Nat × β)
  | [], _, _ => []
  | (k, v) :: t, a, b => if a = k then (a, b) :: t else (k, v) :: alistSet t a b

/-- Association-list insert-or-replace (append when the key is new). -/
def alistInsertOrSet {β : Type} (l : List (Nat × β)) (a : Nat) (b : β) :
    List (Nat × β) :=
  match alistLookup l a with
  | some _ => alistSet l a b
  | none => l ++ [(a, b)]

/-- BTreeMap `insert`: insert or replace, keeping keys sorted. -/
def histInsert : VersionHistory → TxnIndex → VersionedEntry → VersionHistory
  | [], k, v => [(k, v)]
  | (k0, e0) :: t, k, v =>
    if k < k0 then (k, v) :: (k0, e0) :: t
    else if k = k0 then (k, v) :: t
    else (k0, e0) :: histInsert t k v

/-- BTreeMap `range(..r).next_back()`: the entry with the greatest key
strictly below `r` (on a key-sorted list). -/
def rangeBelowLast (h : VersionHistory) (r : TxnIndex) :
    Option (TxnIndex × VersionedEntry) :=
  (h.filter (fun kv => decide (kv.1 < r))).getLast?

/-- BTreeMap `range(r..).next()`: the entry with the least key `≥ r`
(on a key-sorted list). -/
def rangeFromFirst (h : VersionHistory) (r : TxnIndex) :
    Option (TxnIndex × VersionedEntry) :=
  (h.filter (fun kv => decide (r ≤ kv.1))).head?

/-- mvhashmap.rs: `ReadResult`. -/
inductive ReadResult
  | Versioned (version : Version) (state : AccountState)
  | Storage
  | Dependency (txn_idx : TxnIndex)
deriving DecidableEq, Repr

/-- mvhashmap.rs: `WriteResult`. -/
structure WriteResult where
  invalidated_readers : List TxnIndex
deriving DecidableEq, Repr

/-- mvhashmap.rs: `MVHashMap { data }`, extended by the storage-read index
the spec assigns to the MVS.  The index is touched only by
`record_storage_read` (see there); no function of mvhashmap.rs reads it. -/
structure MVHashMap where
  data : List (Address × VersionHistory)
  storageReads : List (Address × List TxnIndex)
deriving DecidableEq, Repr

/-- `MVHashMap::new`. -/
def MVHashMap.empty : MVHashMap := ⟨[], []⟩

/-- Body of `MVHashMap::read` for one history (the `if let Some(versions)`
branch of mvhashmap.rs lines 69-84). -/
def readHist (h : VersionHistory) (reader_txn_idx : TxnIndex) : ReadResult :=
  match rangeBelowLast h reader_txn_idx with
  | some kv => ReadResult.Versioned kv.2.version kv.2.state
  | none =>
    match rangeFromFirst h reader_txn_idx with
    | some _ => ReadResult.Storage
    | none => ReadResult.Storage

/-- mvhashmap.rs lines 66-88: `MVHashMap::read`. -/
def MVHashMap.read (mv : MVHashMap) (address : Address)
    (reader_txn_idx : TxnIndex) : ReadResult :=
  match alistLookup mv.data address with
  | some versions => readHist versions reader_txn_idx
  | none => ReadResult.Storage

/-- mvhashmap.rs lines 96-149: `MVHashMap::write`.  Collects the readers of
the previous versioned entry below the writer (filtered to indices above the
writer), then inserts or replaces the entry at the writer index with an
empty reader set.  The storage-read index is not consulted. -/
def MVHashMap.write (mv : MVHashMap) (address : Address)
    (writer_txn_idx : TxnIndex) (incarnation : Incarnation)
    (state : AccountState) : MVHashMap × WriteResult :=
  let newEntry : VersionedEntry := ⟨⟨writer_txn_idx, incarnation⟩, state, []⟩
  match alistLookup mv.data address with
  | some versions =>
    let invalidated :=
      match rangeBelowLast versions writer_txn_idx with
      | some kv => kv.2.readers.filter (fun r => decide (writer_txn_idx < r))
      | none => []
    ({ mv with data := alistSet mv.data address (histInsert versions writer_txn_idx newEntry) },
     ⟨invalidated⟩)
  | none =>
    ({ mv with data := mv.data ++ [(address, [(writer_txn_idx, newEntry)])] },
     ⟨[]⟩)

/-- mvhashmap.rs lines 155-163: `MVHashMap::record_read`. -/
def MVHashMap.record_read (mv : MVHashMap) (address : Address)
    (reader_txn_idx : TxnIndex) (version : Version) : MVHashMap :=
  match alistLookup mv.data address with
  | none => mv
  | some versions =>
    match alistLookup versions version.txn_idx with
    | none => mv
    | some entry =>
      if entry.version = version ∧ reader_txn_idx ∉ entry.readers then
        { mv with data := alistSet mv.data address (alistSet versions version.txn_idx { entry with readers := entry.readers ++ [reader_txn_idx] }) }
      else mv

/-- Modelled from the spec: `record_storage_read` is invoked from
`ParallelExecutor::read_account` (executor.rs line 346) but no such method
is defined on `MVHashMap` anywhere in the sources.  Per the spec it adds
`reader_idx` to the address's storage-read index. -/
def MVHashMap.record_storage_read (mv : MVHashMap) (address : Address)
    (reader_txn_idx : TxnIndex) : MVHashMap :=
  match alistLookup mv.storageReads address with
  | some readers =>
    if reader_txn_idx ∈ readers then mv
    else { mv with storageReads :=
             alistSet mv.storageReads address (readers ++ [reader_txn_idx]) }
  | none =>
    { mv with storageReads := mv.storageReads ++ [(address, [reader_txn_idx])] }

/-- mvhashmap.rs lines 166-170: `MVHashMap::clear_transaction`.  Defined in
the source but never called from the executor or the scheduler. -/
def MVHashMap.clear_transaction (mv : MVHashMap) (txn_idx : TxnIndex) :
    MVHashMap :=
  { mv with data :=
      mv.data.map (fun p => (p.1, p.2.filter (fun kv => decide (kv.1 ≠ txn_idx)))) }

/-- mvhashmap.rs lines 173-184: `MVHashMap::get_committed_states`.  For each
address, the entry with the greatest transaction index. -/
def MVHashMap.get_committed_states (mv : MVHashMap) :
    List (Address × AccountState) :=
  mv.data.foldr (fun p acc =>
    match p.2.getLast? with
    | some kv => (p.1, kv.2.state) :: acc
    | none => acc) []

/-- types.rs: `ExecutionStatus`. -/
inductive ExecutionStatus
  | Pending
  | Executing (incarnation : Incarnation)
  | Executed (incarnation : Incarnation)
  | Committed
deriving DecidableEq, Repr

/-- scheduler.rs: `Task`. -/
inductive Task
  | Execute (txn_idx : TxnIndex) (incarnation : Incarnation)
  | Wait
  | Done
deriving DecidableEq, Repr

/-- scheduler.rs: the scheduler state (atomics and locks flattened into a
plain record; each public method below is one critical section). -/
structure Scheduler where
  num_txns : Nat
  statuses : List ExecutionStatus
  ready_queue : List (TxnIndex × Incarnation)
  committed_idx : Nat
  executed_once_count : Nat
  done : Bool
deriving DecidableEq, Repr

/-- scheduler.rs lines 46-65: `Scheduler::new`. -/
def Scheduler.new (num_txns : Nat) : Scheduler :=
  { num_txns := num_txns
    statuses := List.replicate num_txns ExecutionStatus.Pending
    ready_queue := (List.range num_txns).map (fun i => (i, 0))
    committed_idx := 0
    executed_once_count := 0
    done := false }

/-- scheduler.rs lines 68-95: `Scheduler::next_task`.  Pops the ready queue
and unconditionally marks the popped index Executing. -/
def Scheduler.next_task (s : Scheduler) : Scheduler × Task :=
  if s.done then (s, Task.Done)
  else
    match s.ready_queue with
    | (txn_idx, incarnation) :: rest =>
      ({ s with ready_queue := rest
                statuses := s.statuses.set txn_idx (ExecutionStatus.Executing incarnation) },
       Task.Execute txn_idx incarnation)
    | [] =>
      if s.num_txns ≤ s.committed_idx then ({ s with done := true }, Task.Done)
      else (s, Task.Wait)

/-- scheduler.rs lines 127-143: `Scheduler::abort_transaction`. -/
def Scheduler.abort_transaction (s : Scheduler) (txn_idx : TxnIndex) : Scheduler :=
  match s.statuses.get? txn_idx with
  | some (ExecutionStatus.Executing incarnation) =>
    { s with statuses := s.statuses.set txn_idx ExecutionStatus.Pending
             ready_queue := s.ready_queue ++ [(txn_idx, incarnation + 1)] }
  | some (ExecutionStatus.Executed incarnation) =>
    { s with statuses := s.statuses.set txn_idx ExecutionStatus.Pending
             ready_queue := s.ready_queue ++ [(txn_idx, incarnation + 1)] }
  | _ => s

/-- Loop body of `try_commit_transactions`: commit in order while the next
status is Executed.  Fuel bounds the loop; `num_txns - committed_idx` steps
always suffice since each iteration increments `committed_idx`. -/
def commitLoop : Nat → Scheduler → Scheduler
  | 0, s => s
  | fuel + 1, s =>
    if s.committed_idx < s.num_txns then
      match s.statuses.get? s.committed_idx with
      | some (ExecutionStatus.Executed _) =>
        commitLoop fuel
          { s with statuses := s.statuses.set s.committed_idx ExecutionStatus.Committed
                   committed_idx := s.committed_idx + 1 }
      | _ => s
    else s

/-- scheduler.rs lines 146-188: `Scheduler::try_commit_transactions`. -/
def Scheduler.try_commit_transactions (s : Scheduler) : Scheduler :=
  let s1 := commitLoop (s.num_txns - s.committed_idx) s
  if s1.num_txns ≤ s1.committed_idx then { s1 with done := true } else s1

/-- scheduler.rs lines 100-124: `Scheduler::finish_execution`.  Writes
Executed(incarnation) unconditionally, aborts all invalidated indices, then
commits (the commit try-lock is uncontended in an atomic-step model). -/
def Scheduler.finish_execution (s : Scheduler) (txn_idx : TxnIndex)
    (incarnation : Incarnation) (invalidated : List TxnIndex) : Scheduler :=
  let s1 := { s with statuses := s.statuses.set txn_idx (ExecutionStatus.Executed incarnation) }
  let s2 := if incarnation = 0 then { s1 with executed_once_count := s1.executed_once_count + 1 } else s1
  let s3 := invalidated.foldl (fun acc j => acc.abort_transaction j) s2
  s3.try_commit_transactions

/-- executor.rs: `ExecutionError` (the `Permanent` reason string is dropped;
no claim depends on it). -/
inductive ExecutionError
  | Permanent
  | Retry
deriving DecidableEq, Repr

/-- executor.rs: `Transaction`.  `from`/`to` are renamed (`from` is a Lean
keyword); `sigValid` embeds the pure predicate `verify_signature()`. -/
structure Transaction where
  from_addr : Address
  to_addr : Address
  value : Nat
  nonce : Nat
  sigValid : Bool
deriving DecidableEq, Repr

/-- `Vec::sort_unstable` for `Vec<TxnIndex>` (insertion sort). -/
def insertSortedNat (a : Nat) : List Nat → List Nat
  | [] => [a]
  | b :: t => if a ≤ b then a :: b :: t else b :: insertSortedNat a t

/-- `Vec::sort_unstable` for `Vec<TxnIndex>`. -/
def sortNat : List Nat → List Nat
  | [] => []
  | a :: t => insertSortedNat a (sortNat t)

/-- `Vec::dedup`: remove consecutive duplicates. -/
def dedupAdj : List Nat → List Nat
  | [] => []
  | [a] => [a]
  | a :: b :: t => if a = b then dedupAdj (b :: t) else a :: dedupAdj (b :: t)

/-- executor.rs lines 331-362: `ParallelExecutor::read_account`.  Returns the
account state together with the MVS after the read is recorded. -/
def read_account (address : Address) (reader_txn_idx : TxnIndex)
    (mv : MVHashMap) (initial_states : List (Address × AccountState)) :
    MVHashMap × AccountState :=
  match mv.read address reader_txn_idx with
  | ReadResult.Versioned version state =>
    (mv.record_read address reader_txn_idx version, state)
  | ReadResult.Storage =>
    (mv.record_storage_read address reader_txn_idx,
     (alistLookup initial_states address).getD ⟨0, 0⟩)
  | ReadResult.Dependency _ =>
    (mv, (alistLookup initial_states address).getD ⟨0, 0⟩)

/-- executor.rs lines 268-328: `ParallelExecutor::execute_transaction`.
Returns the MVS after all reads/writes, and either the sorted deduplicated
invalidation list or the error. -/
def execute_transaction (tx : Transaction) (txn_idx : TxnIndex)
    (incarnation : Incarnation) (mv : MVHashMap)
    (initial_states : List (Address × AccountState))
    (verify_signatures : Bool) :
    MVHashMap × Except ExecutionError (List TxnIndex) :=
  if verify_signatures && !tx.sigValid then
    (mv, Except.error ExecutionError.Permanent)
  else
    let senderRead := read_account tx.from_addr txn_idx mv initial_states
    let sender_state := senderRead.2
    if sender_state.nonce ≠ tx.nonce then
      (senderRead.1, Except.error ExecutionError.Retry)
    else if sender_state.balance < tx.value then
      (senderRead.1, Except.error ExecutionError.Retry)
    else
      let receiverRead := read_account tx.to_addr txn_idx senderRead.1 initial_states
      let receiver_state := receiverRead.2
      let new_sender_state : AccountState :=
        ⟨sender_state.nonce + 1, sender_state.balance - tx.value⟩
      let new_receiver_state : AccountState :=
        ⟨receiver_state.nonce, receiver_state.balance + tx.value⟩
      let w1 := MVHashMap.write receiverRead.1 tx.from_addr txn_idx incarnation new_sender_state
      let w2 := MVHashMap.write w1.1 tx.to_addr txn_idx incarnation new_receiver_state
      let invalidated :=
        dedupAdj (sortNat (w1.2.invalidated_readers ++ w2.2.invalidated_readers))
      (w2.1, Except.ok invalidated)

/-- The shared state of executor.rs `execute_block`: scheduler, MVS and the
three atomic counters. -/
structure GlobalState where
  sched : Scheduler
  mv : MVHashMap
  execution_count : Nat
  success_count : Nat
  fail_count : Nat
deriving DecidableEq, Repr

/-- Where a worker thread stands in `worker_loop`: between iterations, about
to run a received Execute task, or exited. -/
inductive WorkerPhase
  | Idle
  | HasTask (txn_idx : TxnIndex) (incarnation : Incarnation)
  | Stopped
deriving DecidableEq, Repr

/-- The whole multi-threaded system: shared state plus one phase per worker. -/
structure SystemState where
  global : GlobalState
  workers : List WorkerPhase
deriving DecidableEq, Repr

/-- executor.rs lines 94-105: the shared state at the start of
`execute_block`, with the given number of worker threads. -/
def initialSystem (num_txns : Nat) (num_workers : Nat) : SystemState :=
  { global := { sched := Scheduler.new num_txns
                mv := MVHashMap.empty
                execution_count := 0
                success_count := 0
                fail_count := 0 }
    workers := List.replicate num_workers WorkerPhase.Idle }

/-- One atomic step of worker `w` in `worker_loop` (executor.rs lines
169-259): an Idle worker calls `next_task` (counting the execution on an
Execute task, lines 172-173); a worker holding a task runs
`execute_transaction` and reports via `finish_execution`, bumping
`success_count` on Ok (line 191) and `fail_count` on Permanent (line 205).
A schedule in which each execute-and-finish runs without interleaving is one
of the interleavings the real threads can take. -/
def workerStep (transactions : List Transaction)
    (initial_states : List (Address × AccountState))
    (verify_signatures : Bool) (st : SystemState) (w : Nat) : SystemState :=
  match st.workers.get? w with
  | none => st
  | some WorkerPhase.Stopped => st
  | some WorkerPhase.Idle =>
    match st.global.sched.next_task with
    | (sched1, Task.Execute txn_idx incarnation) =>
      { st with
        global := { st.global with sched := sched1, execution_count := st.global.execution_count + 1 }
        workers := st.workers.set w (WorkerPhase.HasTask txn_idx incarnation) }
    | (sched1, Task.Wait) =>
      { st with global := { st.global with sched := sched1 } }
    | (sched1, Task.Done) =>
      { st with
        global := { st.global with sched := sched1 }
        workers := st.workers.set w WorkerPhase.Stopped }
  | some (WorkerPhase.HasTask txn_idx incarnation) =>
    match transactions.get? txn_idx with
    | none => { st with workers := st.workers.set w WorkerPhase.Idle }
    | some tx =>
      let mv1 := (execute_transaction tx txn_idx incarnation st.global.mv initial_states verify_signatures).1
      match (execute_transaction tx txn_idx incarnation st.global.mv initial_states verify_signatures).2 with
      | Except.ok invalidated =>
        { st with
          global := { st.global with
                      mv := mv1
                      sched := st.global.sched.finish_execution txn_idx incarnation invalidated
                      success_count := st.global.success_count + 1 }
          workers := st.workers.set w WorkerPhase.Idle }
      | Except.error ExecutionError.Retry =>
        { st with
          global := { st.global with
                      mv := mv1
                      sched := st.global.sched.finish_execution txn_idx incarnation [] }
          workers := st.workers.set w WorkerPhase.Idle }
      | Except.error ExecutionError.Permanent =>
        { st with
          global := { st.global with
                      mv := mv1
                      sched := st.global.sched.finish_execution txn_idx incarnation []
                      fail_count := st.global.fail_count + 1 }
          workers := st.workers.set w WorkerPhase.Idle }

/-- Run the system along a schedule: the list says which worker takes each
successive atomic step. -/
def runSchedule (transactions : List Transaction)
    (initial_states : List (Address × AccountState))
    (verify_signatures : Bool) (schedule : List Nat) (st : SystemState) :
    SystemState :=
  schedule.foldl (workerStep transactions initial_states verify_signatures) st

/-- executor.rs lines 68-80: `BlockExecutionResult` (without `duration`). -/
structure BlockExecutionResult where
  successful : Nat
  failed : Nat
  total_executions : Nat
  final_states : List (Address × AccountState)
deriving DecidableEq, Repr

/-- executor.rs lines 140-152: the result `execute_block` assembles after the
workers join. -/
def blockResult (st : SystemState) : BlockExecutionResult :=
  { successful := st.global.success_count
    failed := st.global.fail_count
    total_executions := st.global.execution_count
    final_states := st.global.mv.get_committed_states }

/-- The serial reference semantics named by the spec (section 8, serial
equivalence): apply transactions strictly in order; a nonce mismatch,
insufficient balance or invalid signature leaves the state unchanged; the
receiver is read after the sender update, so a self-transfer nets to
nonce + 1 with the balance unchanged.  This definition follows the claim
wording, not the executor code; it is the comparison point for refinement. -/
def applyTxSequential (verify_signatures : Bool)
    (state : List (Address × AccountState)) (tx : Transaction) :
    List (Address × AccountState) :=
  if verify_signatures && !tx.sigValid then state
  else
    let s := (alistLookup state tx.from_addr).getD ⟨0, 0⟩
    if s.nonce ≠ tx.nonce then state
    else if s.balance < tx.value then state
    else
      let state1 := alistInsertOrSet state tx.from_addr ⟨s.nonce + 1, s.balance - tx.value⟩
      let r := (alistLookup state1 tx.to_addr).getD ⟨0, 0⟩
      alistInsertOrSet state1 tx.to_addr ⟨r.nonce, r.balance + tx.value⟩

/-- Fold of the serial reference semantics over a batch. -/
def sequentialStates (transactions : List Transaction)
    (initial_states : List (Address × AccountState))
    (verify_signatures : Bool) : List (Address × AccountState) :=
  transactions.foldl (applyTxSequential verify_signatures) initial_states

/-- The scheduler's public operation alphabet: what worker threads invoke on
the shared `Scheduler` (`next_task`, `finish_execution` — which internally
aborts and commits —, `abort_transaction`, and the commit pass). -/
inductive SchedOp
  | NextTaskOp
  | FinishOp (txn_idx : TxnIndex) (incarnation : Incarnation) (invalidated : List TxnIndex)
  | AbortOp (txn_idx : TxnIndex)
  | CommitOp
deriving DecidableEq, Repr

/-- Apply one scheduler operation (dropping the returned task). -/
def applySchedOp (s : Scheduler) : SchedOp → Scheduler
  | SchedOp.NextTaskOp => (s.next_task).1
  | SchedOp.FinishOp txn_idx incarnation invalidated => s.finish_execution txn_idx incarnation invalidated
  | SchedOp.AbortOp txn_idx => s.abort_transaction txn_idx
  | SchedOp.CommitOp => s.try_commit_transactions

/-- Apply a sequence of scheduler operations. -/
def applySchedOps (s : Scheduler) (ops : List SchedOp) : Scheduler :=
  ops.foldl applySchedOp s

/-- Scenario for C1/C3: a self-transfer with correct nonce and ample
balance (spec section 8 scenario 6). -/
def c1tx : Transaction := ⟨1, 1, 100, 0, true⟩

/-- Initial snapshot for C1/C3: account 1 has nonce 0 and balance 1000. -/
def c1init : List (Address × AccountState) := [(1, ⟨0, 1000⟩)]

/-- The complete single-worker run of `execute_block` on the self-transfer
batch: pop the only task, execute it, observe Done. -/
def c1final : SystemState :=
  runSchedule [c1tx] c1init false [0, 0, 0] (initialSystem 1 1)

/-- Direct evaluation of `execute_transaction` on the self-transfer. -/
def c3run : MVHashMap × Except ExecutionError (List TxnIndex) :=
  execute_transaction c1tx 0 0 MVHashMap.empty c1init false

/-- Batch for C2: txn 0 and txn 1 spend from the same sender (address 1)
with consecutive nonces. -/
def c2txs : List Transaction := [⟨1, 2, 10, 0, true⟩, ⟨1, 3, 5, 1, true⟩]

/-- Initial snapshot for C2. -/
def c2init : List (Address × AccountState) := [(1, ⟨0, 1000⟩)]

/-- C2, one worker: the deterministic `num_threads = 1` run. -/
def c2runA : SystemState :=
  runSchedule c2txs c2init false [0, 0, 0, 0, 0] (initialSystem 2 1)

/-- C2, two workers: worker 1 pops txn 1 and runs it to completion before
worker 0 executes txn 0 — a legal interleaving of `num_threads = 2`. -/
def c2runB : SystemState :=
  runSchedule c2txs c2init false [0, 1, 1, 0, 0, 1] (initialSystem 2 2)

/-- State for C4: transaction 1 resolves address 55 from the initial
snapshot, which lands it in the storage-read index (via `read_account`). -/
def c4mv : MVHashMap := (read_account 55 1 MVHashMap.empty []).1

/-- C4: transaction 0 then writes address 55. -/
def c4write : MVHashMap × WriteResult := MVHashMap.write c4mv 55 0 0 ⟨1, 100⟩

/-- Batch for C5: a single transaction whose nonce (5) can never match the
sender's nonce (0) — semantically invalid in the serial order. -/
def c5txs : List Transaction := [⟨1, 2, 10, 5, true⟩]

/-- Initial snapshot for C5. -/
def c5init : List (Address × AccountState) := [(1, ⟨0, 1000⟩)]

/-- C5 midpoint: the single worker has popped Execute(0, 0). -/
def c5mid : SystemState := runSchedule c5txs c5init false [0] (initialSystem 1 1)

/-- C5 complete run: the Retry execution is committed and the worker exits. -/
def c5final : SystemState := runSchedule c5txs c5init false [0, 0] c5mid

/-- Batch for C6: txn 0 funds account 2, txns 1 and 2 both spend from
account 2; with the interleaving below, txn 2 first succeeds against txn 0's
write, is aborted by txn 1's write, and its re-execution is a Retry. -/
def c6txs : List Transaction :=
  [⟨1, 2, 200, 0, true⟩, ⟨2, 4, 600, 0, true⟩, ⟨2, 3, 650, 0, true⟩]

/-- Initial snapshot for C6. -/
def c6init : List (Address × AccountState) :=
  [(1, ⟨0, 1000⟩), (2, ⟨0, 500⟩), (3, ⟨0, 0⟩), (4, ⟨0, 0⟩)]

/-- C6 complete two-worker run: worker 0 runs txn 0, then txn 2; worker 1
runs txn 1, whose write aborts txn 2; worker 0 re-runs txn 2 (Retry). -/
def c6final : SystemState :=
  runSchedule c6txs c6init false [0, 0, 1, 0, 0, 1, 0, 0, 0, 1] (initialSystem 3 2)

/-- The versioned entry stored at (address, txn_idx) in an MVS, if any. -/
def mvEntryAt (mv : MVHashMap) (address : Address) (txn_idx : TxnIndex) :
    Option VersionedEntry :=
  match alistLookup mv.data address with
  | some h => alistLookup h txn_idx
  | none => none

/-- C7 witness data: the entry written by transaction 0. -/
def c7e0 : VersionedEntry := ⟨⟨0, 0⟩, ⟨3, 30⟩, []⟩

/-- C7 witness data: the entry written by transaction 2. -/
def c7e2 : VersionedEntry := ⟨⟨2, 1⟩, ⟨9, 90⟩, [5]⟩

/-- C7 witness data: an MVS whose history for address 7 has entries at
transaction indices 0 and 2. -/
def c7mv : MVHashMap := ⟨[(7, [(0, c7e0), (2, c7e2)])], []⟩

/-- C8 operation sequence, first part: txn 0 is popped, aborted while
Executing (re-queueing (0, 1)), then its stale finish_execution lands and
commits it. -/
def c8opsA : List SchedOp :=
  [SchedOp.NextTaskOp, SchedOp.AbortOp 0, SchedOp.FinishOp 0 0 []]

/-- C8 operation sequence, full: two further next_task calls; the second
pops the stale entry (0, 1) and overwrites the Committed status. -/
def c8opsB : List SchedOp :=
  c8opsA ++ [SchedOp.NextTaskOp, SchedOp.NextTaskOp]

/-- Key-sortedness of a version history (the BTreeMap representation
invariant). -/
abbrev HistSorted (h : VersionHistory) : Prop :=
  h.Pairwise (fun p q => p.1 < q.1)

/-- On a list with strictly increasing keys, an element whose key bounds all
keys in the list is the last element. -/
theorem getLast_eq_of_key_max (l : List (TxnIndex × VersionedEntry))
    (hs : l.Pairwise (fun p q => p.1 < q.1)) (k : TxnIndex) (e : VersionedEntry)
    (hm : (k, e) ∈ l) (hmax : ∀ p ∈ l, p.1 ≤ k) : l.getLast? = some (k, e) := by
  induction l with
  | nil => cases hm
  | cons x t ih =>
    cases t with
    | nil =>
      have hx : (k, e) = x := by simpa using hm
      simp [← hx]
    | cons y t2 =>
      have hp := List.pairwise_cons.mp hs
      have hkmem : (k, e) ∈ y :: t2 := by
        rcases List.mem_cons.mp hm with hx | ht
        · exfalso
          have h1 : x.1 < y.1 := hp.1 y (List.mem_cons_self y t2)
          have h2 : y.1 ≤ k := hmax y (List.mem_cons_of_mem x (List.mem_cons_self y t2))
          rw [← hx] at h1
          exact absurd h2 (Nat.not_le_of_lt h1)
        · exact ht
      rw [List.getLast?_cons_cons]
      exact ih hp.2 hkmem (fun p hp2 => hmax p (List.mem_cons_of_mem x hp2))

/-- Claim C1, refuted: executing the self-transfer batch through the parallel
engine with one worker (the deterministic single-thread schedule) commits
account 1 as (nonce 0, balance 1100), while strict sequential application of
the same batch against the same initial state yields (nonce 1,
balance 1000); the final states are not equal. -/
theorem c1_parallel_diverges_from_sequential :
    (blockResult c1final).final_states = [(1, ⟨0, 1100⟩)] ∧
    sequentialStates [c1tx] c1init false = [(1, ⟨1, 1000⟩)] ∧
    c1final.workers = [WorkerPhase.Stopped] ∧
    ((⟨0, 1100⟩ : AccountState) ≠ ⟨1, 1000⟩) :=
  ⟨rfl, rfl, rfl, by decide⟩

/-- Claim C2, refuted: for the fixed batch `c2txs` and initial state
`c2init`, the one-worker run reports successful = 2 and commits account 1 at
(nonce 2, balance 985), while a legal two-worker interleaving (worker 1 runs
txn 1 to completion before txn 0 writes; txn 1's storage read is never
invalidated) reports successful = 1 and commits account 1 at (nonce 1,
balance 990) — both counters and final_states depend on the thread count. -/
theorem c2_outcome_depends_on_schedule :
    (blockResult c2runA).successful = 2 ∧
    (blockResult c2runB).successful = 1 ∧
    alistLookup (blockResult c2runA).final_states 1 = some ⟨2, 985⟩ ∧
    alistLookup (blockResult c2runB).final_states 1 = some ⟨1, 990⟩ ∧
    c2runA.workers = [WorkerPhase.Stopped] ∧
    c2runB.workers = [WorkerPhase.Stopped, WorkerPhase.Stopped] :=
  ⟨rfl, rfl, rfl, rfl, rfl, rfl⟩

/-- Claim C3, refuted: `execute_transaction` on a self-transfer (from = to,
correct nonce, sufficient balance) reports success, but the second write
(receiver update, computed from the pre-state) replaces the first instead of
being combined with it: the committed state of account 1 is (nonce 0,
balance 1100) — the nonce is not incremented and the balance grew by the
transferred value — instead of the claimed (nonce 1, balance 1000). -/
theorem c3_self_transfer_wrong_result :
    c3run.2 = Except.ok [] ∧
    c3run.1.get_committed_states = [(1, ⟨0, 1100⟩)] ∧
    ((⟨0, 1100⟩ : AccountState) ≠ ⟨1, 1000⟩) :=
  ⟨rfl, rfl, by decide⟩

/-- Claim C4, refuted: transaction 1 resolved address 55 from the initial
snapshot (it sits in the storage-read index and no versioned entry exists),
yet `MVHashMap::write` by transaction 0 at that address returns an empty
invalidation set — the write never consults the storage-read index, so the
storage reader above the writer is not invalidated. -/
theorem c4_write_ignores_storage_readers :
    alistLookup c4mv.storageReads 55 = some [1] ∧
    c4mv.data = [] ∧
    c4write.2.invalidated_readers = [] ∧
    (1 : TxnIndex) ∉ c4write.2.invalidated_readers :=
  ⟨rfl, rfl, rfl, by decide⟩

/-- Claim C5, refuted as stated: the batch holds a single transaction whose
nonce can never match, so its execution is a Retry with no writes and its
(empty) lower-indexed prefix is committed; the run commits it, yet the
failed counter stays 0 — no code inspects writes at commit time. -/
theorem c5_retry_commit_not_counted_failed :
    (blockResult c5final).failed = 0 ∧
    (blockResult c5final).successful = 0 ∧
    c5final.global.sched.statuses = [ExecutionStatus.Committed] ∧
    (blockResult c5final).final_states = [] ∧
    c5final.workers = [WorkerPhase.Stopped] :=
  ⟨rfl, rfl, rfl, rfl, rfl⟩

/-- Claim C5, amended: a transaction whose execution returns Retry is marked
Executed with no invalidations and neither `failed` nor `successful` is
touched, by that worker step or by the commit pass it triggers — `failed`
counts only Permanent (signature) failures. -/
theorem c5_amended_retry_leaves_counters
    (transactions : List Transaction)
    (initial_states : List (Address × AccountState))
    (verify_signatures : Bool) (st : SystemState)
    (w txn_idx incarnation : Nat) (tx : Transaction)
    (hw : st.workers[w]? = some (WorkerPhase.HasTask txn_idx incarnation))
    (htx : transactions[txn_idx]? = some tx)
    (hres : (execute_transaction tx txn_idx incarnation st.global.mv initial_states verify_signatures).2
      = Except.error ExecutionError.Retry) :
    (workerStep transactions initial_states verify_signatures st w).global.fail_count
      = st.global.fail_count ∧
    (workerStep transactions initial_states verify_signatures st w).global.success_count
      = st.global.success_count ∧
    (workerStep transactions initial_states verify_signatures st w).global.sched
      = st.global.sched.finish_execution txn_idx incarnation [] := by
  simp [workerStep, hw, htx, hres]

/-- Witness for the amended C5: the concrete Retry step of the `c5txs`
scenario leaves both counters unchanged and hands the scheduler an empty
invalidation list. -/
theorem c5_amended_witness :
    (workerStep c5txs c5init false c5mid 0).global.fail_count = c5mid.global.fail_count ∧
    (workerStep c5txs c5init false c5mid 0).global.success_count = c5mid.global.success_count ∧
    (workerStep c5txs c5init false c5mid 0).global.sched = c5mid.global.sched.finish_execution 0 0 [] :=
  c5_amended_retry_leaves_counters c5txs c5init false c5mid 0 0 0 ⟨1, 2, 10, 5, true⟩ rfl rfl rfl

/-- Claim C6, refuted: in the two-worker run `c6final`, transaction 2 wrote
entries at addresses 2 and 3 in incarnation 0, was aborted by transaction
1's write, and its re-execution returned Retry (no writes); yet after that
re-execution has finished (all statuses Committed, workers stopped) the
incarnation-0 entries are still present at transaction index 2 and
`get_committed_states` returns them — address 2 ends at (nonce 1,
balance 50) and address 3 at (nonce 0, balance 650), while the serial
reference gives (nonce 1, balance 100) and (nonce 0, balance 0). -/
theorem c6_stale_writes_survive_retry :
    mvEntryAt c6final.global.mv 2 2 = some ⟨⟨2, 0⟩, ⟨1, 50⟩, []⟩ ∧
    mvEntryAt c6final.global.mv 3 2 = some ⟨⟨2, 0⟩, ⟨0, 650⟩, []⟩ ∧
    alistLookup (blockResult c6final).final_states 2 = some ⟨1, 50⟩ ∧
    alistLookup (blockResult c6final).final_states 3 = some ⟨0, 650⟩ ∧
    alistLookup (sequentialStates c6txs c6init false) 2 = some ⟨1, 100⟩ ∧
    alistLookup (sequentialStates c6txs c6init false) 3 = some ⟨0, 0⟩ ∧
    c6final.global.sched.statuses
      = [ExecutionStatus.Committed, ExecutionStatus.Committed, ExecutionStatus.Committed] ∧
    c6final.workers = [WorkerPhase.Stopped, WorkerPhase.Stopped] :=
  ⟨rfl, rfl, rfl, rfl, rfl, rfl, rfl, rfl⟩

/-- Claim C7: `MVHashMap::read` returns the Versioned entry with the
greatest transaction index strictly below the reader when one exists,
returns Storage when no entry lies below the reader (or the address is
absent), and its result is unchanged by removing every entry with index at
or above the reader. -/
theorem c7_read_spec (mv : MVHashMap) (a : Address) (r : TxnIndex) :
    (∀ h k e, alistLookup mv.data a = some h → HistSorted h →
      (k, e) ∈ h → k < r → (∀ p ∈ h, p.1 < r → p.1 ≤ k) →
      mv.read a r = ReadResult.Versioned e.version e.state) ∧
    (∀ h, alistLookup mv.data a = some h → (∀ p ∈ h, ¬ p.1 < r) →
      mv.read a r = ReadResult.Storage) ∧
    (alistLookup mv.data a = none → mv.read a r = ReadResult.Storage) ∧
    (∀ h, alistLookup mv.data a = some h →
      readHist h r = readHist (h.filter (fun kv => decide (kv.1 < r))) r) := by
  refine ⟨?_, ?_, ?_, ?_⟩
  · intro h k e hlook hsorted hmem hkr hmax
    have hfs : (h.filter (fun kv => decide (kv.1 < r))).Pairwise (fun p q => p.1 < q.1) :=
      hsorted.filter _
    have hfm : (k, e) ∈ h.filter (fun kv => decide (kv.1 < r)) :=
      List.mem_filter.mpr ⟨hmem, by simpa using hkr⟩
    have hfmax : ∀ p ∈ h.filter (fun kv => decide (kv.1 < r)), p.1 ≤ k := by
      intro p hp
      have hp2 := List.mem_filter.mp hp
      exact hmax p hp2.1 (by simpa using hp2.2)
    have hlast := getLast_eq_of_key_max _ hfs k e hfm hfmax
    simp [MVHashMap.read, hlook, readHist, rangeBelowLast, hlast]
  · intro h hlook hnone
    have hfe : h.filter (fun kv => decide (kv.1 < r)) = [] := by
      apply List.filter_eq_nil_iff.mpr
      intro p hp
      simpa using hnone p hp
    rcases hrf : rangeFromFirst h r with _ | kv <;>
      simp [MVHashMap.read, hlook, readHist, rangeBelowLast, hfe, hrf]
  · intro hlook
    simp [MVHashMap.read, hlook]
  · intro h hlook
    have hff : (h.filter (fun kv => decide (kv.1 < r))).filter (fun kv => decide (kv.1 < r))
        = h.filter (fun kv => decide (kv.1 < r)) := by
      apply List.filter_eq_self.mpr
      intro p hp
      exact (List.mem_filter.mp hp).2
    have key : rangeBelowLast (h.filter (fun kv => decide (kv.1 < r))) r = rangeBelowLast h r := by
      unfold rangeBelowLast
      rw [hff]
    unfold readHist
    rw [key]
    rcases hbl : rangeBelowLast h r with _ | kv
    · rcases h1 : rangeFromFirst h r with _ | kv1 <;>
        rcases h2 : rangeFromFirst (h.filter (fun kv => decide (kv.1 < r))) r with _ | kv2 <;> rfl
    · rfl

/-- Witness for C7: on the concrete MVS `c7mv` (entries at indices 0 and 2
for address 7), a read by transaction 2 returns the entry written by
transaction 0 — the greatest index strictly below the reader. -/
theorem c7_read_spec_witness :
    MVHashMap.read c7mv 7 2 = ReadResult.Versioned ⟨0, 0⟩ ⟨3, 30⟩ :=
  (c7_read_spec c7mv 7 2).1 [(0, c7e0), (2, c7e2)] 0 c7e0 rfl (by decide) (by decide)
    (by decide) (by decide)

/-- Claim C8, refuted: starting from `Scheduler::new 2`, the operation
sequence pop txn 0, abort it while Executing (re-queueing it at incarnation
1), then let its stale `finish_execution` land — commits transaction 0; two
further `next_task` calls pop the stale ready-queue entry and overwrite the
Committed status with Executing 1, so a Committed index does not stay
Committed. -/
theorem c8_committed_status_revived :
    (applySchedOps (Scheduler.new 2) c8opsA).statuses.get? 0
      = some ExecutionStatus.Committed ∧
    (applySchedOps (Scheduler.new 2) c8opsB).statuses.get? 0
      = some (ExecutionStatus.Executing 1) :=
  ⟨rfl, rfl⟩

/-- Claim C10: `MVHashMap::read` only ever returns Storage or Versioned —
the Dependency constructor is never produced, so the Dependency fallback in
`read_account` is unreachable. -/
theorem c10_read_never_dependency (mv : MVHashMap) (a : Address) (r : TxnIndex) :
    mv.read a r = ReadResult.Storage ∨
    ∃ v s, mv.read a r = ReadResult.Versioned v s := by
  rcases hl : alistLookup mv.data a with _ | h
  · exact Or.inl (by simp [MVHashMap.read, hl])
  · rcases hbl : rangeBelowLast h r with _ | kv
    · rcases hrf : rangeFromFirst h r with _ | kv2
      · exact Or.inl (by simp [MVHashMap.read, readHist, hl, hbl, hrf])
      · exact Or.inl (by simp [MVHashMap.read, readHist, hl, hbl, hrf])
    · exact Or.inr ⟨kv.2.version, kv.2.state, by simp [MVHashMap.read, readHist, hl, hbl]⟩

end BlockSTM
